import Mathlib

/-!
Verification of the bibliotheek.be loan-tracking core.

Shallow embedding of the JavaScript sources:
  * `src/drivers/library-account/device.js` — `_processData`,
    `_checkAndTriggerFlows`, `_calculateDaysRemaining`, `refreshData`,
    `extendAllLoans`, `_extractLibraryFromUrl`
  * `src/lib/BibliotheekAPI.js` — `login`, `extendLoans`

Modelling conventions:
  * JavaScript strings are Lean `String`; `undefined`/`null`-able values are
    `Option`; JS `a || b` falsiness on strings (empty string is falsy) is
    `jsOrStr`.
  * JS `Map` (insertion ordered, `set` on an existing key updates in place)
    is an association list `List (String × LoanRec)` with `mapSet`.
  * Dates are civil-calendar day numbers (days since the Unix epoch at local
    midnight).  The local clock is modelled with a fixed, non-negative UTC
    offset and no DST transitions, so the millisecond difference between two
    local midnights is an exact multiple of 86400000.
  * Effectful fetches are modelled by passing the remote responses in as data
    (`LoginWorld`, `Except String Data`).
-/

namespace Bib

/-! ### JavaScript helpers -/

/-- JS `a || b` for a possibly-absent string: `undefined`, `null` and the
empty string are falsy. -/
def jsOrStr (a : Option String) (b : String) : String :=
  match a with
  | none => b
  | some s => if s = "" then b else s

/-- JS `a || null` for a possibly-absent string (`loan.extendLoanId || null`). -/
def jsOrNullStr (a : Option String) : Option String :=
  match a with
  | none => none
  | some s => if s = "" then none else some s

/-- JS `String.prototype.split` on a single-character separator, over the
character list of the string. -/
def splitOnCharList (c : Char) : List Char → List (List Char)
  | [] => [[]]
  | x :: xs =>
    let r := splitOnCharList c xs
    if x = c then [] :: r
    else
      match r with
      | [] => [[x]]
      | y :: ys => (x :: y) :: ys

/-- JS `s.split(c)` returning strings. -/
def jsSplit (c : Char) (s : String) : List String :=
  (splitOnCharList c s.data).map String.mk

/-- Digit list to a natural number (decimal). -/
def digitsToNat (l : List Char) : Nat :=
  l.foldl (fun acc c => acc * 10 + (c.toNat - 48)) 0

/-- JS `Number(s)` restricted to the shapes the date parser meets:
the empty string is `0`, a non-empty all-digit string is its value, and
anything else is `NaN` (modelled as `none`). -/
def jsNumber (s : String) : Option Int :=
  if s = "" then some 0
  else if s.data.all Char.isDigit then some (digitsToNat s.data : Int)
  else none

/-- `name.charAt(0).toUpperCase() + name.slice(1)` (empty string stays empty). -/
def capitalizeFirst (s : String) : String :=
  match s.data with
  | [] => ""
  | c :: cs => String.mk (c.toUpper :: cs)

/-- Split a character list at the first occurrence of a pattern. -/
def splitOnFirst (pat : List Char) : List Char → Option (List Char × List Char)
  | [] => if pat = [] then some ([], []) else none
  | x :: xs =>
    if pat.isPrefixOf (x :: xs) then some ([], (x :: xs).drop pat.length)
    else
      match splitOnFirst pat xs with
      | none => none
      | some (a, b) => some (x :: a, b)

/-- `device.js` `_extractLibraryFromUrl`: `new URL(url).hostname`, first
dot-separated label, first letter capitalized; `null` when the URL is absent
or not an absolute URL (the `URL` constructor throws). -/
def extractLibraryFromUrl (url : Option String) : Option String :=
  match url with
  | none => none
  | some u =>
    if u = "" then none
    else
      match splitOnFirst "://".data u.data with
      | none => none
      | some (_, rest) =>
        let hostname := rest.takeWhile (fun c => c ≠ '/')
        let name := (splitOnCharList '.' hostname).headD []
        some (capitalizeFirst (String.mk name))

/-! ### Calendar arithmetic

Civil date to day number (days since 1970-01-01), the standard
days-from-civil computation; valid for every year when the month is in
`[1, 12]`, and linear in the day so JS day-of-month rollover is covered. -/

def daysFromCivil (y m d : Int) : Int :=
  let ys := if m ≤ 2 then y - 1 else y
  let era := Int.fdiv ys 400
  let yoe := ys - era * 400
  let mp := Int.emod (m + 9) 12
  let doy := Int.fdiv (153 * mp + 2) 5 + d - 1
  let doe := yoe * 365 + Int.fdiv yoe 4 - Int.fdiv yoe 100 + doy
  era * 146097 + doe - 719468

/-- JS `new Date(year, monthIndex, day)` normalized to local midnight, as a
day number.  Years `0..99` map to `1900..1999`; an out-of-range month index
rolls over into adjacent years. -/
def jsDateYMD (year monthIndex day : Int) : Int :=
  let y0 := if 0 ≤ year ∧ year ≤ 99 then year + 1900 else year
  daysFromCivil (y0 + Int.fdiv monthIndex 12) (Int.emod monthIndex 12 + 1) day

def isLeapYear (y : Int) : Bool :=
  (Int.emod y 4 = 0 && Int.emod y 100 ≠ 0) || Int.emod y 400 = 0

def daysInMonth (y m : Int) : Int :=
  if m = 2 then (if isLeapYear y then 29 else 28)
  else if m = 4 ∨ m = 6 ∨ m = 9 ∨ m = 11 then 30
  else 31

/-- JS `new Date(s)` for a date-only ISO-8601 string `YYYY-MM-DD`
(out-of-range components give an invalid date); any other shape is treated
as unparseable. -/
def parseIsoDate (s : String) : Option Int :=
  match (splitOnCharList '-' s.data).map String.mk with
  | [ys, ms, ds] =>
    if ys.data.all Char.isDigit ∧ ys.length = 4
        ∧ ms.data.all Char.isDigit ∧ ms.length = 2
        ∧ ds.data.all Char.isDigit ∧ ds.length = 2 then
      let y : Int := (digitsToNat ys.data : Int)
      let m : Int := (digitsToNat ms.data : Int)
      let d : Int := (digitsToNat ds.data : Int)
      if 1 ≤ m ∧ m ≤ 12 ∧ 1 ≤ d ∧ d ≤ daysInMonth y m then
        some (daysFromCivil y m d)
      else none
    else none
  | _ => none

def msPerDay : Int := 1000 * 60 * 60 * 24

/-- `device.js` `_calculateDaysRemaining(dueDateStr)`: `DD/MM/YYYY` first,
then ISO; both due date and "now" are normalized to local midnight;
`Math.floor(diffMs / 86400000)`; absent, empty or unparseable input is `0`.
`todayDay` is the day number of the current local date. -/
def calculateDaysRemaining (todayDay : Int) (dueDateStr : Option String) : Int :=
  match dueDateStr with
  | none => 0
  | some s =>
    if s = "" then 0
    else
      let dueDay? : Option Int :=
        match jsSplit '/' s with
        | [ds, ms, ys] =>
          match jsNumber ds, jsNumber ms, jsNumber ys with
          | some d, some m, some y => some (jsDateYMD y (m - 1) d)
          | _, _, _ => none
        | _ => parseIsoDate s
      match dueDay? with
      | none => 0
      | some dueDay => Int.fdiv ((dueDay - todayDay) * msPerDay) msPerDay

/-! ### Data model -/

/-- One entry of the overview `loans` array (`/my-library-overview-loans`). -/
structure CoarseLoan where
  title : Option String
  author : Option String
  accountName : Option String
  dueDate : Option String
  isRenewable : Option Bool
  locLibraryName : Option String
  locLibraryUrl : Option String
  extendLoanId : Option String
deriving DecidableEq

/-- The record `_processData` stores in its `currentLoans` map. -/
structure LoanRec where
  title : String
  author : String
  daysLeft : Int
  libraryName : String
  userName : String
  isExtendable : Bool
  dueDate : Option String
  extendLoanId : Option String
deriving DecidableEq

/-- One entry of a per-account `loanDetails` object (from `getLoanDetails`). -/
structure DetailLoan where
  title : String
  author : String
  daysRemaining : Option Int
  extendLoanId : String
  isExtendable : Bool
deriving DecidableEq

/-- One entry of `userDetails` (per account). -/
structure UserDetail where
  userName : Option String
  reservationsCount : Option Int
  loanDetails : Option (List DetailLoan)
  loansUrl : Option String
deriving DecidableEq

/-- The data object `refreshAllData` returns (the parts `_processData` and
`extendAllLoans` read). -/
structure Data where
  userDetails : List (String × UserDetail)
  loans : List CoarseLoan
deriving DecidableEq

abbrev LoanMap := List (String × LoanRec)

/-- JS `Map.prototype.set`: updating an existing key keeps its position,
otherwise the pair is appended. -/
def mapSet (m : LoanMap) (k : String) (v : LoanRec) : LoanMap :=
  if (m.lookup k).isSome then
    m.map (fun p => if p.1 = k then (k, v) else p)
  else m ++ [(k, v)]

/-! ### `_processData` -/

/-- Accumulated state of `_processData`. -/
structure PState where
  minDays : Option Int
  totalLoans : Int
  totalReservations : Int
  expiringSoon : Int
  someNotExtendable : Bool
  currentLoans : LoanMap
deriving DecidableEq

def initPState : PState :=
  { minDays := none, totalLoans := 0, totalReservations := 0
    expiringSoon := 0, someNotExtendable := false, currentLoans := [] }

/-- `if (minDaysRemaining === null || daysLeft < minDaysRemaining)`. -/
def minUpd (o : Option Int) (x : Int) : Option Int :=
  match o with
  | none => some x
  | some m => if x < m then some x else some m

/-- The key `` `${loan.title || ''}|${loan.accountName || ''}` ``. -/
def coarseKey (loan : CoarseLoan) : String :=
  jsOrStr loan.title "" ++ "|" ++ jsOrStr loan.accountName ""

/-- The record the overview loop stores for one coarse loan. -/
def coarseRec (today : Int) (loan : CoarseLoan) : LoanRec :=
  { title := jsOrStr loan.title "Unknown"
    author := jsOrStr loan.author ""
    daysLeft := calculateDaysRemaining today loan.dueDate
    libraryName :=
      jsOrStr loan.locLibraryName
        (jsOrStr (extractLibraryFromUrl loan.locLibraryUrl) "Unknown")
    userName := jsOrStr loan.accountName "Unknown"
    isExtendable := loan.isRenewable ≠ some false
    dueDate := loan.dueDate
    extendLoanId := jsOrNullStr loan.extendLoanId }

/-- One iteration of the overview (`for (const loan of loans)`) loop. -/
def coarseStep (today T : Int) (st : PState) (loan : CoarseLoan) : PState :=
  let daysLeft := calculateDaysRemaining today loan.dueDate
  { st with
    totalLoans := st.totalLoans + 1
    minDays := minUpd st.minDays daysLeft
    expiringSoon := if daysLeft ≤ T then st.expiringSoon + 1 else st.expiringSoon
    someNotExtendable :=
      if loan.isRenewable = some false then true else st.someNotExtendable
    currentLoans := mapSet st.currentLoans (coarseKey loan) (coarseRec today loan) }

/-- The key `` `${loanDetail.title}|${user.accountDetails?.userName || ''}` ``. -/
def detailKey (userName : Option String) (dtl : DetailLoan) : String :=
  dtl.title ++ "|" ++ jsOrStr userName ""

/-- One iteration of the per-user `loanDetails` loop: the extendability flag,
then the detail-over-coarse merge guarded by `daysRemaining !== undefined`
and by the key being present; the minimum is only ever lowered
(`if (loanDetail.daysRemaining < minDaysRemaining)`). -/
def detailStep (userName : Option String) (st : PState) (dtl : DetailLoan) : PState :=
  let st1 := { st with
    someNotExtendable := if dtl.isExtendable then st.someNotExtendable else true }
  match dtl.daysRemaining with
  | none => st1
  | some dr =>
    let key := detailKey userName dtl
    match st1.currentLoans.lookup key with
    | none => st1
    | some existing =>
      let updated := { existing with
        daysLeft := dr
        extendLoanId := some dtl.extendLoanId
        isExtendable := dtl.isExtendable }
      { st1 with
        currentLoans := mapSet st1.currentLoans key updated
        minDays := if dr < st1.minDays.getD 0 then some dr else st1.minDays }

/-- One iteration of the `Object.entries(userDetails)` loop. -/
def userStep (st : PState) (user : UserDetail) : PState :=
  let st1 := { st with
    totalReservations := st.totalReservations + user.reservationsCount.getD 0 }
  match user.loanDetails with
  | none => st1
  | some dl => dl.foldl (detailStep user.userName) st1

/-- `device.js` `_processData(data)`: aggregate the overview loans, merge the
per-account detail records, then recount `expiringSoon` over the merged map. -/
def processData (today T : Int) (d : Data) : PState :=
  let st1 := d.loans.foldl (coarseStep today T) initPState
  let st2 := d.userDetails.foldl (fun s p => userStep s p.2) st1
  { st2 with
    expiringSoon :=
      st2.currentLoans.foldl (fun n p => if p.2.daysLeft ≤ T then n + 1 else n) 0 }

/-! ### `_checkAndTriggerFlows` -/

inductive Event where
  | daysChanged (days : Option Int) (loanCount : Int)
  | loanExpiring (title : String) (daysLeft : Int) (libraryName userName : String)
  | loanOverdue (title : String) (daysOverdue : Int) (libraryName : String)
deriving DecidableEq

def Event.isDaysChangedEv : Event → Bool
  | .daysChanged _ _ => true
  | _ => false

def Event.isExpiringEv : Event → Bool
  | .loanExpiring _ _ _ _ => true
  | _ => false

/-- `(!previousLoan || (previousLoan.daysLeft > warningThreshold &&
loan.daysLeft <= warningThreshold)) && (loan.daysLeft <= warningThreshold &&
loan.daysLeft >= 0)`. -/
def expiringCond (prev : Option LoanRec) (dl T : Int) : Bool :=
  (match prev with
   | none => true
   | some p => decide (T < p.daysLeft) && decide (dl ≤ T))
  && (decide (dl ≤ T) && decide (0 ≤ dl))

/-- `(!previousLoan && loan.daysLeft < 0) || (previousLoan &&
previousLoan.daysLeft >= 0 && loan.daysLeft < 0)`. -/
def overdueCond (prev : Option LoanRec) (dl : Int) : Bool :=
  match prev with
  | none => decide (dl < 0)
  | some p => decide (0 ≤ p.daysLeft) && decide (dl < 0)

/-- The body of the per-loan loop in `_checkAndTriggerFlows`. -/
def loanEvents (prevLoans : LoanMap) (T : Int) (entry : String × LoanRec) :
    List Event :=
  let prev := prevLoans.lookup entry.1
  let loan := entry.2
  (if expiringCond prev loan.daysLeft T then
    [Event.loanExpiring loan.title loan.daysLeft loan.libraryName loan.userName]
  else [])
  ++ (if overdueCond prev loan.daysLeft then
    [Event.loanOverdue loan.title |loan.daysLeft| loan.libraryName]
  else [])

/-- `device.js` `_checkAndTriggerFlows`.  The previous state is the pair
`(prevMin, prevLoans)` the device carries in `_previousDaysRemaining` /
`_previousLoans`; on a fresh device it is `(none, [])`. -/
def checkAndTriggerFlows (prevMin : Option Int) (prevLoans : LoanMap)
    (cur : LoanMap) (minD : Option Int) (total : Int) (T : Int) : List Event :=
  (if prevMin ≠ none ∧ prevMin ≠ minD then [Event.daysChanged minD total] else [])
  ++ cur.foldr (fun e acc => loanEvents prevLoans T e ++ acc) []

/-! ### Device state, `refreshData` -/

structure DeviceState where
  prevMin : Option Int
  prevLoans : LoanMap
  store : Option Data
deriving DecidableEq

/-- The state a freshly initialized device starts from (`onInit`). -/
def initDeviceState : DeviceState :=
  { prevMin := none, prevLoans := [], store := none }

/-- One `_processData(data, triggerFlows)` call: compute, optionally trigger,
then overwrite `_previousDaysRemaining` / `_previousLoans`. -/
def processDataStep (today T : Int) (s : DeviceState) (d : Data)
    (triggerFlows : Bool) : DeviceState × List Event :=
  let r := processData today T d
  let evs := if triggerFlows then
      checkAndTriggerFlows s.prevMin s.prevLoans r.currentLoans r.minDays
        r.totalLoans T
    else []
  ({ s with prevMin := r.minDays, prevLoans := r.currentLoans }, evs)

/-- `device.js` `refreshData()`: the fetch result is passed in; on failure the
catch block returns `false` and touches nothing; on success the snapshot is
stored, then `_processData(data, true)` runs. -/
def refreshData (today T : Int) (s : DeviceState) (fetch : Except String Data) :
    Bool × DeviceState × List Event :=
  match fetch with
  | .error _ => (false, s, [])
  | .ok d =>
    let s1 := { s with store := some d }
    let (s2, evs) := processDataStep today T s1 d true
    (true, s2, evs)

/-! ### `login` (`BibliotheekAPI.js`) -/

/-- The responses the login protocol receives, as data. -/
structure LoginWorld where
  authStartStatus : Int
  /-- Query parameters of the `Location` header of the start response;
  `none` means no `Location` header at all. -/
  authStartLocationParams : Option (List (String × String))
  loginStatus : Int
  loginHasLocation : Bool
  callbackStatus : Int
  verifyStatus : Int
deriving DecidableEq

/-- The form-encoded body POSTed to the credential-submission endpoint. -/
structure LoginForm where
  hint : String
  token : String
  callback : String
  email : String
  password : String
deriving DecidableEq

/-- `BibliotheekAPI.login`: first component is the credential form POSTed to
`/openbibid/rest/auth/login` (`none` when the flow never reaches that POST),
second is the call's outcome.  `oauth_callback` is parsed but unused by the
source; `hint` and `token` are defaulted with `||`, the callback is a
hardcoded constant. -/
def login (w : LoginWorld) (username password : String) :
    Option LoginForm × Except String Bool :=
  if w.authStartStatus ≠ 302 then (none, .ok true)
  else
    match w.authStartLocationParams with
    | none => (none, .error "No OAuth location in response")
    | some params =>
      let oauthToken := params.lookup "oauth_token"
      let hint := params.lookup "hint"
      let form : LoginForm :=
        { hint := jsOrStr hint "login"
          token := jsOrStr oauthToken ""
          callback := "https://bibliotheek.be/my-library/login/callback"
          email := username
          password := password }
      if ¬(w.loginStatus = 200 ∨ w.loginStatus = 303) then
        (some form, .error "Login failed")
      else if w.verifyStatus ≠ 200 then
        (some form, .error "Authentication verification failed")
      else (some form, .ok true)

/-! ### `extendAllLoans` -/

/-- `user.loans?.url?.replace(/\/loans$/, '')`. -/
def stripLoansSuffix (s : String) : String :=
  if "/loans".data.isSuffixOf s.data then
    String.mk (s.data.take (s.data.length - 6))
  else s

/-- The inner selection loop of `extendAllLoans`:
`loan.isExtendable && loan.extendLoanId && loan.daysRemaining <= maxDays`
(an `undefined` `daysRemaining` compares false). -/
def eligibleIds (maxDays : Int) (dl : List DetailLoan) : List String :=
  dl.filterMap fun loan =>
    if loan.isExtendable
        && !(loan.extendLoanId == "")
        && (match loan.daysRemaining with
            | some v => decide (v ≤ maxDays)
            | none => false) then
      some loan.extendLoanId
    else none

/-- `device.js` `extendAllLoans(maxDays)`: the batch requests issued, one
`(baseUrl, loanIds)` pair per `api.extendLoans` call. -/
def extendAllLoansRequests (maxDays : Int) (d : Data) :
    List (String × List String) :=
  d.userDetails.filterMap fun p =>
    match p.2.loanDetails with
    | none => none
    | some dl =>
      let baseUrl := jsOrStr (p.2.loansUrl.map stripLoansSuffix) ""
      let ids := eligibleIds maxDays dl
      if ids ≠ [] ∧ baseUrl ≠ "" then some (baseUrl, ids) else none

/-! ## Helper lemmas -/

theorem mem_events_foldr (pl : LoanMap) (T : Int) (cur : LoanMap) (e : Event) :
    e ∈ cur.foldr (fun p acc => loanEvents pl T p ++ acc) [] ↔
      ∃ p ∈ cur, e ∈ loanEvents pl T p := by
  induction cur with
  | nil => simp
  | cons x xs ih => simp [List.foldr_cons, List.mem_append, ih]

theorem mem_loanEvents (pl : LoanMap) (T : Int) (k : String) (loan : LoanRec)
    (e : Event) :
    e ∈ loanEvents pl T (k, loan) ↔
      (expiringCond (pl.lookup k) loan.daysLeft T = true ∧
        e = Event.loanExpiring loan.title loan.daysLeft loan.libraryName
              loan.userName)
      ∨ (overdueCond (pl.lookup k) loan.daysLeft = true ∧
        e = Event.loanOverdue loan.title |loan.daysLeft| loan.libraryName) := by
  by_cases h1 : expiringCond (pl.lookup k) loan.daysLeft T <;>
    by_cases h2 : overdueCond (pl.lookup k) loan.daysLeft <;>
      simp [loanEvents, List.mem_append, h1, h2]

theorem expiringCond_iff (prev : Option LoanRec) (dl T : Int) :
    expiringCond prev dl T = true ↔
      (0 ≤ dl ∧ dl ≤ T ∧ (prev = none ∨ ∃ p, prev = some p ∧ T < p.daysLeft)) := by
  cases prev with
  | none => simp [expiringCond]; tauto
  | some p => simp [expiringCond]; tauto

theorem overdueCond_iff (prev : Option LoanRec) (dl : Int) :
    overdueCond prev dl = true ↔
      (dl < 0 ∧ (prev = none ∨ ∃ p, prev = some p ∧ 0 ≤ p.daysLeft)) := by
  cases prev with
  | none => simp [overdueCond]
  | some p => simp [overdueCond]; tauto

theorem mem_checkAndTriggerFlows (prevMin : Option Int) (prevLoans : LoanMap)
    (cur : LoanMap) (minD : Option Int) (total T : Int) (e : Event) :
    e ∈ checkAndTriggerFlows prevMin prevLoans cur minD total T ↔
      ((prevMin ≠ none ∧ prevMin ≠ minD) ∧ e = Event.daysChanged minD total)
      ∨ ∃ p ∈ cur, e ∈ loanEvents prevLoans T p := by
  by_cases h : prevMin ≠ none ∧ prevMin ≠ minD <;>
    simp [checkAndTriggerFlows, h, List.mem_append, mem_events_foldr]

/-- The `daysLeft` values the overview loop feeds into the running minimum. -/
def coarseDaysList (today : Int) (loans : List CoarseLoan) : List Int :=
  loans.map fun l => calculateDaysRemaining today l.dueDate

def mapKeys (m : LoanMap) : List String := m.map Prod.fst

/-- The detail `daysRemaining` values that are merged (defined `daysRemaining`
and a key already present in the loan map), in iteration order. -/
def dlMatchedDrs (keys : List String) (userName : Option String)
    (dl : List DetailLoan) : List Int :=
  dl.filterMap fun dtl =>
    match dtl.daysRemaining with
    | none => none
    | some dr => if detailKey userName dtl ∈ keys then some dr else none

def userMatchedDrs (keys : List String) (u : UserDetail) : List Int :=
  match u.loanDetails with
  | none => []
  | some dl => dlMatchedDrs keys u.userName dl

def matchedDrs (keys : List String) (users : List (String × UserDetail)) :
    List Int :=
  (users.map fun p => userMatchedDrs keys p.2).flatten

/-- The keys of the loan map after the overview loop (the detail loop never
adds keys). -/
def coarseKeys (today T : Int) (d : Data) : List String :=
  mapKeys ((d.loans.foldl (coarseStep today T) initPState).currentLoans)

theorem minUpd_ne_none (o : Option Int) (x : Int) : minUpd o x ≠ none := by
  cases o with
  | none => simp [minUpd]
  | some m => simp only [minUpd]; split <;> simp

theorem foldl_minUpd_eq_none (l : List Int) :
    ∀ o : Option Int, List.foldl minUpd o l = none ↔ (o = none ∧ l = []) := by
  induction l with
  | nil => intro o; simp
  | cons x xs ih =>
    intro o
    simp only [List.foldl_cons, ih]
    simp [minUpd_ne_none o x]

theorem lookup_eq_none_iff (m : LoanMap) (k : String) :
    m.lookup k = none ↔ k ∉ mapKeys m := by
  induction m with
  | nil => simp [mapKeys]
  | cons p t ih =>
    obtain ⟨a, b⟩ := p
    by_cases h : k = a
    · subst h
      simp [List.lookup_cons, mapKeys]
    · have hb : (k == a) = false := by simp [h]
      simp [List.lookup_cons, hb, mapKeys, h, ih, mapKeys]

theorem mapSet_keys (m : LoanMap) (k : String) (v : LoanRec)
    (h : (m.lookup k).isSome = true) : mapKeys (mapSet m k v) = mapKeys m := by
  simp only [mapSet, if_pos h, mapKeys, List.map_map]
  apply List.map_congr_left
  intro p _
  by_cases hp : p.1 = k <;> simp [hp]

/-- The invariant the detail-merge loop relies on: a `null` running minimum
means the loan map is still empty. -/
def pinv (st : PState) : Prop := st.minDays = none → st.currentLoans = []

theorem coarse_foldl_minDays (today T : Int) (loans : List CoarseLoan) :
    ∀ st : PState,
      ((loans.foldl (coarseStep today T) st).minDays) =
        List.foldl minUpd st.minDays (coarseDaysList today loans) := by
  induction loans with
  | nil => intro st; rfl
  | cons l ls ih =>
    intro st
    simp only [List.foldl_cons, coarseDaysList, List.map_cons] at *
    rw [ih]
    rfl

theorem coarse_foldl_pinv (today T : Int) (loans : List CoarseLoan) :
    ∀ st : PState, pinv st → pinv (loans.foldl (coarseStep today T) st) := by
  induction loans with
  | nil => intro st h; exact h
  | cons l ls ih =>
    intro st _
    refine ih _ ?_
    intro hmin
    exact absurd hmin (minUpd_ne_none _ _)

theorem detailStep_char (userName : Option String) (st : PState)
    (dtl : DetailLoan) (h : pinv st) :
    mapKeys (detailStep userName st dtl).currentLoans = mapKeys st.currentLoans
    ∧ (detailStep userName st dtl).minDays =
        List.foldl minUpd st.minDays
          (dlMatchedDrs (mapKeys st.currentLoans) userName [dtl])
    ∧ pinv (detailStep userName st dtl) := by
  cases hdr : dtl.daysRemaining with
  | none =>
    simp only [detailStep, hdr]
    refine ⟨trivial, ?_, ?_⟩
    · simp [dlMatchedDrs, hdr]
    · intro hm
      exact h hm
  | some dr =>
    cases hlk : st.currentLoans.lookup (detailKey userName dtl) with
    | none =>
      have hnm : detailKey userName dtl ∉ mapKeys st.currentLoans :=
        (lookup_eq_none_iff _ _).mp hlk
      simp only [detailStep, hdr, hlk]
      refine ⟨trivial, ?_, ?_⟩
      · simp [dlMatchedDrs, hdr, hnm]
      · intro hm
        exact h hm
    | some existing =>
      have hmem : detailKey userName dtl ∈ mapKeys st.currentLoans := by
        by_contra hc
        rw [← lookup_eq_none_iff] at hc
        rw [hc] at hlk
        exact Option.noConfusion hlk
      obtain ⟨m, hm⟩ : ∃ m, st.minDays = some m := by
        cases hsm : st.minDays with
        | none =>
          have := h hsm
          rw [this] at hlk
          exact absurd hlk (by simp)
        | some m => exact ⟨m, rfl⟩
      refine ⟨?_, ?_, ?_⟩
      · simp only [detailStep, hdr, hlk]
        exact mapSet_keys _ _ _ (by rw [hlk]; rfl)
      · simp only [detailStep, hdr, hlk, dlMatchedDrs, List.filterMap_cons,
          List.filterMap_nil, if_pos hmem, List.foldl_cons, List.foldl_nil,
          hm, minUpd, Option.getD_some]
      · intro hmin
        simp only [detailStep, hdr, hlk, hm] at hmin
        split at hmin <;> exact absurd hmin (by simp)

theorem detail_foldl_char (userName : Option String) (dl : List DetailLoan) :
    ∀ st : PState, pinv st →
      mapKeys ((dl.foldl (detailStep userName) st).currentLoans) =
        mapKeys st.currentLoans
      ∧ (dl.foldl (detailStep userName) st).minDays =
          List.foldl minUpd st.minDays
            (dlMatchedDrs (mapKeys st.currentLoans) userName dl)
      ∧ pinv (dl.foldl (detailStep userName) st) := by
  induction dl with
  | nil => intro st h; exact ⟨rfl, by simp [dlMatchedDrs], h⟩
  | cons dtl rest ih =>
    intro st h
    obtain ⟨hk1, hm1, hp1⟩ := detailStep_char userName st dtl h
    obtain ⟨hk2, hm2, hp2⟩ := ih (detailStep userName st dtl) hp1
    have hsplit : dlMatchedDrs (mapKeys st.currentLoans) userName (dtl :: rest) =
        dlMatchedDrs (mapKeys st.currentLoans) userName [dtl]
          ++ dlMatchedDrs (mapKeys st.currentLoans) userName rest := by
      simp only [dlMatchedDrs, List.filterMap_cons, List.filterMap_nil]
      cases dtl.daysRemaining with
      | none => simp
      | some dr => split <;> simp
    refine ⟨?_, ?_, hp2⟩
    · rw [List.foldl_cons, hk2, hk1]
    · rw [List.foldl_cons, hm2, hk1, hm1, hsplit, List.foldl_append]

theorem userStep_char (st : PState) (u : UserDetail) (h : pinv st) :
    mapKeys ((userStep st u).currentLoans) = mapKeys st.currentLoans
    ∧ (userStep st u).minDays =
        List.foldl minUpd st.minDays (userMatchedDrs (mapKeys st.currentLoans) u)
    ∧ pinv (userStep st u) := by
  cases hld : u.loanDetails with
  | none =>
    simp only [userStep, hld]
    refine ⟨trivial, ?_, ?_⟩
    · simp [userMatchedDrs, hld]
    · intro hm
      exact h hm
  | some dl =>
    have hstep := detail_foldl_char u.userName dl
      { st with totalReservations := st.totalReservations + u.reservationsCount.getD 0 }
      (by intro hm; exact h hm)
    simp only [userStep, hld]
    refine ⟨hstep.1, ?_, hstep.2.2⟩
    rw [hstep.2.1]
    simp [userMatchedDrs, hld]

theorem users_foldl_char (users : List (String × UserDetail)) :
    ∀ st : PState, pinv st →
      mapKeys (((users.foldl (fun s p => userStep s p.2) st)).currentLoans) =
        mapKeys st.currentLoans
      ∧ (users.foldl (fun s p => userStep s p.2) st).minDays =
          List.foldl minUpd st.minDays
            (matchedDrs (mapKeys st.currentLoans) users)
      ∧ pinv (users.foldl (fun s p => userStep s p.2) st) := by
  induction users with
  | nil => intro st h; exact ⟨rfl, by simp [matchedDrs], h⟩
  | cons u rest ih =>
    intro st h
    obtain ⟨hk1, hm1, hp1⟩ := userStep_char st u.2 h
    obtain ⟨hk2, hm2, hp2⟩ := ih (userStep st u.2) hp1
    refine ⟨?_, ?_, hp2⟩
    · rw [List.foldl_cons, hk2, hk1]
    · rw [List.foldl_cons, hm2, hk1, hm1]
      simp only [matchedDrs, List.map_cons, List.flatten_cons, List.foldl_append]

theorem dlMatchedDrs_nil_keys (userName : Option String) (dl : List DetailLoan) :
    dlMatchedDrs [] userName dl = [] := by
  induction dl with
  | nil => rfl
  | cons dtl rest ih =>
    simp only [dlMatchedDrs, List.filterMap_cons] at ih ⊢
    cases h : dtl.daysRemaining with
    | none => simpa using ih
    | some dr => simpa using ih

theorem matchedDrs_nil_keys (users : List (String × UserDetail)) :
    matchedDrs [] users = [] := by
  induction users with
  | nil => rfl
  | cons u rest ih =>
    simp only [matchedDrs, List.map_cons, List.flatten_cons] at ih ⊢
    rw [ih, List.append_nil]
    cases hld : u.2.loanDetails with
    | none => simp [userMatchedDrs, hld]
    | some dl => simp [userMatchedDrs, hld, dlMatchedDrs_nil_keys]

/-! ## Claims -/

/-- Spec-side definition (C1): the minimum `daysLeft` over all loans of a
snapshot, `none` when there are none — written from the spec's words, to be
compared with what `processData` publishes. -/
def specSnapshotMin (m : LoanMap) : Option Int :=
  List.foldl minUpd none (m.map fun p => p.2.daysLeft)

/-- C1 example: one overview loan without a due date (`daysLeft = 0`) whose
detail record raises `daysRemaining` to 5. -/
def c1Coarse : CoarseLoan :=
  { title := some "A", author := none, accountName := some "U", dueDate := none,
    isRenewable := some true, locLibraryName := some "Lib",
    locLibraryUrl := none, extendLoanId := none }

def c1Detail : DetailLoan :=
  { title := "A", author := "X", daysRemaining := some 5, extendLoanId := "x9",
    isExtendable := true }

def c1User : UserDetail :=
  { userName := some "U", reservationsCount := some 0,
    loanDetails := some [c1Detail], loansUrl := none }

def c1Data : Data := { userDetails := [("1", c1User)], loans := [c1Coarse] }

/-- C1 counterexample: the detail merge raises the single loan's `daysLeft`
from 0 to 5, so the merged snapshot's minimum is 5, yet the published
`days_remaining` stays 0 — the code only ever lowers the running minimum
during the merge, so the published value is NOT the minimum of `daysLeft`
over the merged snapshot. -/
theorem min_days_not_merged_min_cex :
    (processData 0 7 c1Data).minDays = some 0
    ∧ specSnapshotMin (processData 0 7 c1Data).currentLoans = some 5
    ∧ (processData 0 7 c1Data).minDays
        ≠ specSnapshotMin (processData 0 7 c1Data).currentLoans := by
  decide

/-- C1 (amended): the published `days_remaining` is the running minimum over
the overview loans' computed `daysLeft` values together with every merged
detail `daysRemaining` value — a superset of the merged snapshot's values, so
it can be strictly below the merged snapshot's minimum; it is `null` exactly
when the overview loan list is empty (never 0 for an empty snapshot). -/
theorem min_days_published_characterization (today T : Int) (d : Data) :
    (processData today T d).minDays =
      List.foldl minUpd (List.foldl minUpd none (coarseDaysList today d.loans))
        (matchedDrs (coarseKeys today T d) d.userDetails)
    ∧ ((processData today T d).minDays = none ↔ d.loans = []) := by
  have hst1min := coarse_foldl_minDays today T d.loans initPState
  have hst1pinv := coarse_foldl_pinv today T d.loans initPState (by intro _; rfl)
  have husers := users_foldl_char d.userDetails
    (d.loans.foldl (coarseStep today T) initPState) hst1pinv
  have hmain : (processData today T d).minDays =
      List.foldl minUpd (List.foldl minUpd none (coarseDaysList today d.loans))
        (matchedDrs (coarseKeys today T d) d.userDetails) := by
    show (d.userDetails.foldl (fun s p => userStep s p.2)
        (d.loans.foldl (coarseStep today T) initPState)).minDays = _
    rw [husers.2.1, hst1min]
    rfl
  refine ⟨hmain, ?_⟩
  rw [hmain]
  constructor
  · intro hnone
    obtain ⟨hc, _⟩ := (foldl_minUpd_eq_none _ _).mp hnone
    obtain ⟨_, hclist⟩ := (foldl_minUpd_eq_none _ _).mp hc
    simpa [coarseDaysList] using hclist
  · intro hloans
    rw [hloans]
    have hkeys : coarseKeys today T d = mapKeys
        (([] : List CoarseLoan).foldl (coarseStep today T) initPState).currentLoans := by
      rw [coarseKeys, hloans]
    rw [hkeys]
    simp [coarseDaysList, mapKeys, initPState, matchedDrs_nil_keys]

/-- C5: when one overview (coarse) record and one detail record share the same
identity key, the merged record takes `daysLeft`, `extendLoanId` and
`isExtendable` from the detail record and every other field from the coarse
record. -/
theorem merge_detail_over_coarse (today T : Int) (uid : String)
    (coarse : CoarseLoan) (dtl : DetailLoan) (user : UserDetail) (dr : Int)
    (hld : user.loanDetails = some [dtl])
    (hdr : dtl.daysRemaining = some dr)
    (hkey : detailKey user.userName dtl = coarseKey coarse) :
    (processData today T
        { userDetails := [(uid, user)], loans := [coarse] }).currentLoans =
      [(coarseKey coarse,
        { coarseRec today coarse with
            daysLeft := dr
            extendLoanId := some dtl.extendLoanId
            isExtendable := dtl.isExtendable })] := by
  simp only [processData, List.foldl_cons, List.foldl_nil]
  simp only [userStep, hld, List.foldl_cons, List.foldl_nil, detailStep, hdr,
    hkey, coarseStep, initPState, mapSet, List.lookup_nil, Option.isSome_none,
    Bool.false_eq_true, if_false, List.nil_append, List.lookup_cons,
    beq_self_eq_true, Option.isSome_some, if_true, List.map_cons, List.map_nil,
    if_pos rfl]

/-- C5 example data for the witness. -/
def c5Coarse : CoarseLoan :=
  { title := some "A", author := none, accountName := some "U", dueDate := none,
    isRenewable := some true, locLibraryName := some "Lib",
    locLibraryUrl := none, extendLoanId := none }

def c5Detail : DetailLoan :=
  { title := "A", author := "X", daysRemaining := some 5, extendLoanId := "x9",
    isExtendable := true }

def c5User : UserDetail :=
  { userName := some "U", reservationsCount := some 0,
    loanDetails := some [c5Detail], loansUrl := none }

def c5Data : Data := { userDetails := [("1", c5User)], loans := [c5Coarse] }

/-- C5 witness: the merge at concrete records — detail fields win, the coarse
fields (author, library, user, due date) survive. -/
theorem merge_detail_over_coarse_witness :
    (processData 0 7 c5Data).currentLoans =
      [("A|U", { title := "A", author := "", daysLeft := 5,
                 libraryName := "Lib", userName := "U", isExtendable := true,
                 dueDate := none, extendLoanId := some "x9" })] := by
  have h := merge_detail_over_coarse 0 7 "1" c5Coarse c5Detail c5User 5
    rfl rfl (by decide)
  exact h.trans (by decide)

/-- C2 supporting definition (spec side): the events the claim's amendment
predicts for one loan seen with no previous snapshot. -/
def firstSightEvents (T : Int) (entry : String × LoanRec) : List Event :=
  let loan := entry.2
  (if 0 ≤ loan.daysLeft ∧ loan.daysLeft ≤ T then
    [Event.loanExpiring loan.title loan.daysLeft loan.libraryName loan.userName]
  else [])
  ++ (if loan.daysLeft < 0 then
    [Event.loanOverdue loan.title |loan.daysLeft| loan.libraryName]
  else [])

theorem loanEvents_empty_prev (T : Int) (p : String × LoanRec) :
    loanEvents [] T p = firstSightEvents T p := by
  obtain ⟨k, loan⟩ := p
  have h : ([] : LoanMap).lookup k = none := rfl
  by_cases h0 : 0 ≤ loan.daysLeft <;> by_cases h1 : loan.daysLeft ≤ T <;>
    simp [loanEvents, firstSightEvents, expiringCond, overdueCond, h, h0, h1]

/-- C2 example data (a loan first observed inside the warning window). -/
def c2Rec : LoanRec :=
  { title := "A", author := "", daysLeft := 2, libraryName := "L", userName := "U",
    isExtendable := true, dueDate := none, extendLoanId := none }

/-- C2 counterexample: with no previous snapshot (`prevMin = none`,
`prevLoans = []`) a loan first observed with `daysLeft = 2` inside the warning
window `T = 7` DOES fire `LoanExpiringSoon`, contradicting the claim that
`LoanExpiringSoon` never fires for a loan first observed inside the window. -/
theorem first_sight_expiring_fires_cex :
    Event.loanExpiring "A" 2 "L" "U" ∈
      checkAndTriggerFlows none [] [("A|U", c2Rec)] (some 2) 1 7 := by decide

/-- C2 (amended): when change detection runs with no previous snapshot, no
`DaysChanged` fires, `LoanOverdue` fires for exactly the loans with
`daysLeft < 0`, and `LoanExpiringSoon` fires for exactly the loans with
`daysLeft` in `[0, T]` — the first-sight exception applies to BOTH loan
events, not only to `LoanOverdue`. -/
theorem first_sight_events_characterization (cur : LoanMap) (minD : Option Int)
    (total T : Int) :
    checkAndTriggerFlows none [] cur minD total T =
      cur.foldr (fun p acc => firstSightEvents T p ++ acc) [] := by
  have hdc : ¬((none : Option Int) ≠ none ∧ (none : Option Int) ≠ minD) := by
    simp
  simp only [checkAndTriggerFlows, if_neg hdc, List.nil_append]
  induction cur with
  | nil => rfl
  | cons x xs ih => simp [List.foldr_cons, ih, loanEvents_empty_prev]

/-- C3: `LoanExpiringSoon` fires for a loan iff its current `daysLeft` lies in
`[0, T]` and either the loan is absent from the previous snapshot or its
previous `daysLeft` was strictly greater than `T`; every expiring event of a
full diff comes from some current loan this way; and a loan whose `daysLeft`
is unchanged from the previous poll fires no expiring event. -/
theorem loan_expiring_edge_trigger :
    (∀ (prevLoans : LoanMap) (T : Int) (k : String) (loan : LoanRec),
      Event.loanExpiring loan.title loan.daysLeft loan.libraryName loan.userName
          ∈ loanEvents prevLoans T (k, loan) ↔
        (0 ≤ loan.daysLeft ∧ loan.daysLeft ≤ T ∧
          (prevLoans.lookup k = none ∨
            ∃ p, prevLoans.lookup k = some p ∧ T < p.daysLeft)))
    ∧ (∀ (prevMin : Option Int) (prevLoans cur : LoanMap) (minD : Option Int)
        (total T : Int) (e : Event), e.isExpiringEv = true →
        (e ∈ checkAndTriggerFlows prevMin prevLoans cur minD total T ↔
          ∃ p ∈ cur, e ∈ loanEvents prevLoans T p))
    ∧ (∀ (prevLoans : LoanMap) (T : Int) (k : String) (loan p : LoanRec),
        prevLoans.lookup k = some p → p.daysLeft = loan.daysLeft →
        ∀ e ∈ loanEvents prevLoans T (k, loan), e.isExpiringEv = false) := by
  refine ⟨?_, ?_, ?_⟩
  · intro prevLoans T k loan
    rw [mem_loanEvents, expiringCond_iff, overdueCond_iff]
    constructor
    · rintro (⟨h, _⟩ | ⟨_, h⟩)
      · exact h
      · exact absurd h (by simp)
    · intro h
      exact Or.inl ⟨h, rfl⟩
  · intro prevMin prevLoans cur minD total T e he
    rw [mem_checkAndTriggerFlows]
    constructor
    · rintro (⟨_, rfl⟩ | h)
      · simp [Event.isExpiringEv] at he
      · exact h
    · exact Or.inr
  · intro prevLoans T k loan p hp hdl e he
    rw [mem_loanEvents] at he
    rcases he with ⟨hc, rfl⟩ | ⟨_, rfl⟩
    · rw [hp, expiringCond_iff] at hc
      rcases hc with ⟨_, h1, (h2 | ⟨q, hq, h3⟩)⟩
      · exact absurd h2 (by simp)
      · injection hq with hq
        subst hq
        omega
    · rfl

/-- C3 example records: the spec's §8 scenario (previous `daysLeft = 10`,
current `daysLeft = 7`, threshold 7). -/
def c3PrevRec : LoanRec :=
  { title := "A", author := "", daysLeft := 10, libraryName := "L", userName := "U",
    isExtendable := true, dueDate := none, extendLoanId := none }

def c3CurRec : LoanRec :=
  { title := "A", author := "", daysLeft := 7, libraryName := "L", userName := "U",
    isExtendable := true, dueDate := none, extendLoanId := none }

/-- C3 witness: the spec's §8 scenario — previous `daysLeft = 10`, threshold
7, current `daysLeft = 7` fires; an unchanged loan inside the window does
not. -/
theorem loan_expiring_edge_trigger_witness :
    (Event.loanExpiring "A" 7 "L" "U" ∈
      loanEvents [("A|U", c3PrevRec)] 7 ("A|U", c3CurRec)) ∧
    (∀ e ∈ loanEvents [("A|U", c3CurRec)] 7 ("A|U", c3CurRec),
      e.isExpiringEv = false) := by
  constructor
  · exact (loan_expiring_edge_trigger.1 [("A|U", c3PrevRec)] 7 "A|U" c3CurRec).mpr
      ⟨by decide, by decide, Or.inr ⟨c3PrevRec, by decide, by decide⟩⟩
  · intro e he
    exact loan_expiring_edge_trigger.2.2 [("A|U", c3CurRec)] 7 "A|U" c3CurRec
      c3CurRec (by decide) rfl e he

/-- C4 example: a first cycle with zero loans publishes a `null` minimum. -/
def c4DataEmpty : Data := { userDetails := [], loans := [] }

/-- C4 example: a second cycle with one loan (no due date, so `daysLeft = 0`). -/
def c4DataOne : Data :=
  { userDetails := []
    loans := [{ title := some "A", author := none, accountName := some "U",
                dueDate := none, isRenewable := some true,
                locLibraryName := some "L", locLibraryUrl := none,
                extendLoanId := none }] }

/-- C4 counterexample: a previous snapshot exists (a cycle with zero loans
ran), the aggregate minimum changes from `null` to `0`, yet no `DaysChanged`
event fires in the next cycle — the no-loans → some-loans transition is NOT
reported, because the device stores the previous minimum as `null` and the
trigger requires it to be non-null. -/
theorem days_changed_null_transition_cex :
    ((processDataStep 0 7 initDeviceState c4DataEmpty true).1.prevMin = none)
    ∧ ((processData 0 7 c4DataOne).minDays = some 0)
    ∧ (((processDataStep 0 7
          (processDataStep 0 7 initDeviceState c4DataEmpty true).1
          c4DataOne true).2).all (fun e => !e.isDaysChangedEv) = true) := by
  decide

/-- C4 (amended): `DaysChanged` fires iff the previously published aggregate
minimum is non-null and differs from the current one.  A previous snapshot
with zero loans publishes `null`, so the transition from "no loans" to "some
loans" does not fire; the transition from "some loans" to "no loans" does. -/
theorem days_changed_iff_prev_nonnull (prevMin : Option Int)
    (prevLoans cur : LoanMap) (minD : Option Int) (total T : Int)
    (d : Option Int) (c : Int) :
    Event.daysChanged d c ∈
        checkAndTriggerFlows prevMin prevLoans cur minD total T ↔
      (d = minD ∧ c = total ∧ prevMin ≠ none ∧ prevMin ≠ minD) := by
  rw [mem_checkAndTriggerFlows]
  constructor
  · rintro (⟨⟨h1, h2⟩, he⟩ | ⟨p, _, hp⟩)
    · injection he with hd hc
      exact ⟨hd, hc, h1, h2⟩
    · rw [mem_loanEvents] at hp
      rcases hp with ⟨_, h⟩ | ⟨_, h⟩ <;> exact absurd h (by simp)
  · rintro ⟨rfl, rfl, h1, h2⟩
    exact Or.inl ⟨⟨h1, h2⟩, rfl⟩

/-- C10: if the full fetch fails, `refreshData` resolves to `false` and leaves
the stored snapshot, the previous-loans map and the previous minimum exactly
as they were; the store write and the state update happen only on the success
path, after the whole fetch has produced its data. -/
theorem refresh_failure_preserves_state (today T : Int) (s : DeviceState)
    (err : String) (d : Data) :
    refreshData today T s (Except.error err) = (false, s, [])
    ∧ (refreshData today T s (Except.ok d)).1 = true
    ∧ (refreshData today T s (Except.ok d)).2.1.store = some d := by
  exact ⟨rfl, rfl, rfl⟩

/-- C7 counterexample: the start request redirects (302) to a target whose
query string carries NONE of the protocol parameters, yet `login` does not
fail — it submits the credential form with defaulted values and succeeds. -/
theorem login_missing_params_cex :
    login { authStartStatus := 302, authStartLocationParams := some [],
            loginStatus := 200, loginHasLocation := false,
            callbackStatus := 200, verifyStatus := 200 } "user" "pw"
      = (some { hint := "login", token := "",
                callback := "https://bibliotheek.be/my-library/login/callback",
                email := "user", password := "pw" },
         Except.ok true) := by
  rfl

/-- C7 (amended): when the start request redirects and the `oauth_token` and
`hint` parameters are missing from the redirect target, login does NOT fail
with a missing-parameters error: it proceeds to the credential submission
with `hint` defaulted to `"login"`, an empty `token` and the hardcoded
callback URL.  Only an absent `Location` header aborts the flow, with a
generic error, before any credentials are submitted. -/
theorem login_missing_params_defaults :
    (∀ (w : LoginWorld) (u p : String) (params : List (String × String)),
      w.authStartStatus = 302 →
      w.authStartLocationParams = some params →
      params.lookup "oauth_token" = none →
      params.lookup "hint" = none →
      (login w u p).1 =
        some { hint := "login", token := "",
               callback := "https://bibliotheek.be/my-library/login/callback",
               email := u, password := p })
    ∧ (∀ (w : LoginWorld) (u p : String),
      w.authStartStatus = 302 →
      w.authStartLocationParams = none →
      login w u p = (none, Except.error "No OAuth location in response")) := by
  constructor
  · intro w u p params h302 hloc htok hhint
    have h1 : ¬((302 : Int) ≠ 302) := by simp
    simp only [login, h302, hloc, htok, hhint, if_neg h1, jsOrStr]
    split
    · rfl
    · split <;> rfl
  · intro w u p h302 hloc
    simp [login, h302, hloc]

/-- C7 witness for the amended claim, at a concrete world with one unrelated
query parameter present and both protocol parameters absent. -/
theorem login_missing_params_defaults_witness :
    (login { authStartStatus := 302,
             authStartLocationParams := some [("destination", "x")],
             loginStatus := 303, loginHasLocation := true,
             callbackStatus := 302, verifyStatus := 200 } "a@b" "s").1 =
      some { hint := "login", token := "",
             callback := "https://bibliotheek.be/my-library/login/callback",
             email := "a@b", password := "s" } := by
  exact login_missing_params_defaults.1 _ "a@b" "s" [("destination", "x")]
    rfl rfl (by decide) (by decide)

/-- C6: the days-remaining computation.  For a `DD/MM/YYYY` string naming a
calendar date (four-digit year, month in `[1,12]`) the result is the exact
signed day difference `daysFromCivil y m d - today`, independent of the time
of day (the model's `today` is already the local date); absent and empty
input give 0; a three-part string with a non-numeric component gives 0; an
ISO-8601 date string gives the exact difference as well; any other
unparseable string gives 0. -/
theorem days_remaining_exact :
    (∀ (today : Int) (s sd sm sy : String) (d m y : Int),
      jsSplit '/' s = [sd, sm, sy] →
      jsNumber sd = some d → jsNumber sm = some m → jsNumber sy = some y →
      100 ≤ y → 1 ≤ m → m ≤ 12 →
      calculateDaysRemaining today (some s) = daysFromCivil y m d - today)
    ∧ (∀ today : Int, calculateDaysRemaining today none = 0
        ∧ calculateDaysRemaining today (some "") = 0)
    ∧ (∀ (today : Int) (s sd sm sy : String),
      jsSplit '/' s = [sd, sm, sy] →
      (jsNumber sd = none ∨ jsNumber sm = none ∨ jsNumber sy = none) →
      calculateDaysRemaining today (some s) = 0)
    ∧ (∀ (today : Int) (s : String) (dd : Int),
      s ≠ "" →
      (∀ a b c : String, jsSplit '/' s ≠ [a, b, c]) →
      parseIsoDate s = some dd →
      calculateDaysRemaining today (some s) = dd - today)
    ∧ (∀ (today : Int) (s : String),
      s ≠ "" →
      (∀ a b c : String, jsSplit '/' s ≠ [a, b, c]) →
      parseIsoDate s = none →
      calculateDaysRemaining today (some s) = 0) := by
  have hms : msPerDay ≠ 0 := by decide
  have hempty : ∀ sd sm sy : String, jsSplit '/' "" ≠ [sd, sm, sy] := by
    intro sd sm sy h
    rw [show jsSplit '/' "" = [""] from rfl] at h
    simp at h
  refine ⟨?_, ?_, ?_, ?_, ?_⟩
  · intro today s sd sm sy d m y hsplit hd hm hy hy100 hm1 hm12
    have hne : s ≠ "" := by
      intro h
      subst h
      exact hempty sd sm sy hsplit
    have hjs : jsDateYMD y (m - 1) d = daysFromCivil y m d := by
      have hnot : ¬(0 ≤ y ∧ y ≤ 99) := by omega
      have hf : Int.fdiv (m - 1) 12 = 0 := by
        rw [Int.fdiv_eq_ediv _ (by norm_num)]
        exact Int.ediv_eq_zero_of_lt (by omega) (by omega)
      have he : Int.emod (m - 1) 12 = m - 1 :=
        Int.emod_eq_of_lt (by omega) (by omega)
      simp only [jsDateYMD, if_neg hnot, hf, he]
      norm_num
    simp only [calculateDaysRemaining, if_neg hne, hsplit, hd, hm, hy, hjs]
    rw [Int.mul_fdiv_cancel _ hms]
  · intro today
    exact ⟨rfl, rfl⟩
  · intro today s sd sm sy hsplit hnan
    have hne : s ≠ "" := by
      intro h
      subst h
      exact hempty sd sm sy hsplit
    simp only [calculateDaysRemaining, if_neg hne, hsplit]
    rcases hnan with h | h | h <;> rw [h] <;>
      first
      | rfl
      | (cases jsNumber sd <;> cases jsNumber sm <;> cases jsNumber sy <;> rfl)
  · intro today s dd hne hnot3 hiso
    simp only [calculateDaysRemaining, if_neg hne]
    rcases hsp : jsSplit '/' s with _ | ⟨a, _ | ⟨b, _ | ⟨c, _ | ⟨e, rest⟩⟩⟩⟩
    · simp only [hiso]
      rw [Int.mul_fdiv_cancel _ hms]
    · simp only [hiso]
      rw [Int.mul_fdiv_cancel _ hms]
    · simp only [hiso]
      rw [Int.mul_fdiv_cancel _ hms]
    · exact absurd hsp (hnot3 a b c)
    · simp only [hiso]
      rw [Int.mul_fdiv_cancel _ hms]
  · intro today s hne hnot3 hiso
    simp only [calculateDaysRemaining, if_neg hne]
    rcases hsp : jsSplit '/' s with _ | ⟨a, _ | ⟨b, _ | ⟨c, _ | ⟨e, rest⟩⟩⟩⟩
    · simp only [hiso]
    · simp only [hiso]
    · simp only [hiso]
    · exact absurd hsp (hnot3 a b c)
    · simp only [hiso]

/-- C6 witness: a concrete `DD/MM/YYYY` date three days out, and a concrete
ISO date one day back.  `25/12/2024` seen from `22/12/2024` gives 3;
`2024-12-21` seen from the same day gives -1. -/
theorem days_remaining_exact_witness :
    calculateDaysRemaining (daysFromCivil 2024 12 22) (some "25/12/2024") =
      daysFromCivil 2024 12 25 - daysFromCivil 2024 12 22
    ∧ calculateDaysRemaining (daysFromCivil 2024 12 22) (some "2024-12-21") =
      daysFromCivil 2024 12 21 - daysFromCivil 2024 12 22
    ∧ daysFromCivil 2024 12 25 - daysFromCivil 2024 12 22 = 3
    ∧ daysFromCivil 2024 12 21 - daysFromCivil 2024 12 22 = -1 := by
  refine ⟨?_, ?_, by decide, by decide⟩
  · exact days_remaining_exact.1 _ "25/12/2024" "25" "12" "2024" 25 12 2024
      (by decide) (by decide) (by decide) (by decide) (by decide) (by decide)
      (by decide)
  · refine days_remaining_exact.2.2.2.1 _ "2024-12-21"
      (daysFromCivil 2024 12 21) (by decide) ?_ (by decide)
    intro a b c h
    rw [show jsSplit '/' "2024-12-21" = ["2024-12-21"] from by decide] at h
    simp at h

/-- C8: the batch-extension operation selects exactly the loans that are
renewable, carry a non-empty renewal identifier and have
`daysRemaining ≤ maxDays`, and — provided every account's loans URL is
non-empty, as every snapshot produced by `refreshAllData` guarantees — issues
exactly one batch request per account whose detail set contains at least one
eligible loan, carrying that account's eligible group. -/
theorem extend_selection_grouping :
    (∀ (maxDays : Int) (d : Data),
      (∀ p ∈ d.userDetails, jsOrStr (p.2.loansUrl.map stripLoansSuffix) "" ≠ "") →
      extendAllLoansRequests maxDays d =
        d.userDetails.filterMap (fun p =>
          match p.2.loanDetails with
          | none => none
          | some dl =>
            if eligibleIds maxDays dl = [] then none
            else some (jsOrStr (p.2.loansUrl.map stripLoansSuffix) "",
                       eligibleIds maxDays dl)))
    ∧ (∀ (maxDays : Int) (dl : List DetailLoan) (idv : String),
        idv ∈ eligibleIds maxDays dl ↔
          ∃ loan ∈ dl, loan.extendLoanId = idv ∧ loan.isExtendable = true ∧
            idv ≠ "" ∧ ∃ v, loan.daysRemaining = some v ∧ v ≤ maxDays) := by
  constructor
  · intro maxDays d h
    apply List.filterMap_congr
    intro p hp
    have hb := h p hp
    cases hld : p.2.loanDetails with
    | none => rfl
    | some dl =>
      by_cases hids : eligibleIds maxDays dl = []
      · simp [hids, hb]
      · simp [hids, hb]
  · intro maxDays dl idv
    simp only [eligibleIds, List.mem_filterMap]
    constructor
    · rintro ⟨loan, hmem, hf⟩
      split at hf
      case isTrue hc =>
        injection hf with hf
        subst hf
        rw [Bool.and_eq_true, Bool.and_eq_true] at hc
        obtain ⟨⟨hext, hne⟩, hdr⟩ := hc
        cases hv : loan.daysRemaining with
        | none => rw [hv] at hdr; exact absurd hdr (by simp)
        | some v =>
          rw [hv] at hdr
          refine ⟨loan, hmem, rfl, hext, ?_, v, hv, of_decide_eq_true hdr⟩
          simpa using hne
      case isFalse => exact absurd hf (by simp)
    · rintro ⟨loan, hmem, hid, hext, hne, v, hdr, hle⟩
      subst hid
      refine ⟨loan, hmem, ?_⟩
      have hne' : (loan.extendLoanId == "") = false := by
        simpa using hne
      simp [hext, hne', hdr, hle]

/-- C8 example data: the spec's §8 extension-selection scenario. -/
def c8Loans : List DetailLoan :=
  [{ title := "A", author := "", daysRemaining := some 3, extendLoanId := "x1",
     isExtendable := true },
   { title := "B", author := "", daysRemaining := some 2, extendLoanId := "",
     isExtendable := false },
   { title := "C", author := "", daysRemaining := some 9, extendLoanId := "x3",
     isExtendable := true }]

def c8User : UserDetail :=
  { userName := some "U", reservationsCount := some 0,
    loanDetails := some c8Loans,
    loansUrl := some "https://bibliotheek.be/my-library/memberships/1/loans" }

def c8Data : Data := { userDetails := [("1", c8User)], loans := [] }

/-- C8 witness: at the spec's example, exactly loan A (`x1`) is selected and
exactly one batch request is issued for the account. -/
theorem extend_selection_grouping_witness :
    extendAllLoansRequests 5 c8Data =
      [("https://bibliotheek.be/my-library/memberships/1", ["x1"])] := by
  have h := extend_selection_grouping.1 5 c8Data (by decide)
  exact h.trans (by decide)

end Bib
